import Mathlib

/-!
Verification of the TradingView-to-Bitget webhook relay (`src/server.py`)
against its natural-language specification.

The Python program is shallowly embedded: decoded JSON payload values are
modelled by the inductive `Py` (Python scalars plus lists and string-keyed
dicts, as produced by `json.loads`; floats are outside the model — none of
the verified properties involve them), and the request handler `tv_webhook`
is translated block by block from the source.  Machine-word arithmetic in
the SHA-256 implementation is done on `Nat` with explicit reduction modulo
2^32.  External effects (the clock, the outbound HTTP call) are modelled by
passing the timestamp as an argument and by returning the fully-assembled
outbound request in the result, so that "an exchange call happens" is a
constructor of the result type rather than an IO action.
-/

namespace TvWebhookModel

/-- Model of the Python values a decoded JSON body can contain.
`json.loads` yields `None`, `bool`, `int`, `str`, `list` and `dict`
(floats are not modelled; no claim involves a float payload). -/
inductive Py where
  | none : Py
  | bool : Bool → Py
  | int : Int → Py
  | str : String → Py
  | list : List Py → Py
  | dict : List (String × Py) → Py

/-- Lowercase hex digit, used by the repr/escape helpers. -/
def hexDigit (n : Nat) : Char :=
  if n < 10 then Char.ofNat (48 + n) else Char.ofNat (87 + n)

/-- Two lowercase hex digits of a byte. -/
def hex2 (n : Nat) : String :=
  String.mk [hexDigit (n / 16 % 16), hexDigit (n % 16)]

/-- Four lowercase hex digits of a 16-bit value. -/
def hex4 (n : Nat) : String :=
  String.mk [hexDigit (n / 4096 % 16), hexDigit (n / 256 % 16),
    hexDigit (n / 16 % 16), hexDigit (n % 16)]

/-- The ASCII apostrophe character (written by code point to keep the
source free of quote-character literals). -/
def squote : Char := Char.ofNat 39

/-- Escape of one character inside a Python string repr delimited by
quote character `q`: backslash and the delimiter are escaped, the usual
control characters get their short escapes, other control bytes get a
hex escape.  (Python also hex-escapes unprintable non-ASCII characters;
the payload fields exercised here are ASCII.) -/
def pyEscChar (q c : Char) : String :=
  if c = '\\' then "\\\\"
  else if c = q then "\\" ++ String.mk [q]
  else if c = '\n' then "\\n"
  else if c = '\r' then "\\r"
  else if c = '\t' then "\\t"
  else if c.toNat < 32 ∨ c.toNat = 127 then "\\x" ++ hex2 c.toNat
  else String.mk [c]

/-- Python `repr` of a string: single-quoted unless the string contains a
single quote and no double quote, in which case it is double-quoted. -/
def pyReprStr (s : String) : String :=
  let q : Char :=
    if s.data.contains squote ∧ ¬ s.data.contains '"' then '"' else squote
  String.mk [q] ++ String.join (s.data.map (pyEscChar q)) ++ String.mk [q]

/-- Python `repr` for the modelled values (`str(x)` falls back to this for
non-string values). -/
def pyRepr : Py → String
  | Py.none => "None"
  | Py.bool true => "True"
  | Py.bool false => "False"
  | Py.int n => toString n
  | Py.str s => pyReprStr s
  | Py.list xs =>
      "[" ++ String.intercalate ", " (xs.attach.map fun x => pyRepr x.1) ++ "]"
  | Py.dict kvs =>
      "\x7b" ++ String.intercalate ", "
        (kvs.attach.map fun kv => pyReprStr kv.1.1 ++ ": " ++ pyRepr kv.1.2) ++ "\x7d"
termination_by v => sizeOf v
decreasing_by
  · have h := List.sizeOf_lt_of_mem x.2
    simp only [Py.list.sizeOf_spec]
    omega
  · have h := List.sizeOf_lt_of_mem kv.2
    have h2 : sizeOf (kv.1.2) < sizeOf (kv.1) := by
      have hp : kv.1 = (kv.1.1, kv.1.2) := rfl
      rw [hp]
      simp only [Prod.mk.sizeOf_spec]
      omega
    simp only [Py.dict.sizeOf_spec]
    omega

/-- Python `str()` on the modelled values. -/
def pyStr : Py → String
  | Py.str s => s
  | v => pyRepr v

/-- Python truthiness (`bool(x)`) on the modelled values. -/
def pyTruthy : Py → Bool
  | Py.none => false
  | Py.bool b => b
  | Py.int n => n != 0
  | Py.str s => s != ""
  | Py.list xs => !xs.isEmpty
  | Py.dict kvs => !kvs.isEmpty

/-- Python `==` between an arbitrary value and a string: true exactly when
the value is that string (`str` never compares equal to non-`str`). -/
def pyEqStr : Py → String → Bool
  | Py.str t, s => t == s
  | _, _ => false

/-- ASCII lowercase, modelling `str.lower()` (the fields it is applied to
are ASCII tokens). -/
def pyLower (s : String) : String :=
  String.mk (s.data.map Char.toLower)

/-- The whitespace characters removed by Python `str.strip()` (its ASCII
subset, which covers the payloads considered here). -/
def pyIsSpace (c : Char) : Bool :=
  c = ' ' ∨ c = '\t' ∨ c = '\n' ∨ c = '\r' ∨ c = Char.ofNat 11 ∨ c = Char.ofNat 12

/-- Python `str.strip()`. -/
def pyStrip (s : String) : String :=
  String.mk (((s.data.dropWhile pyIsSpace).reverse.dropWhile pyIsSpace).reverse)

/-- Last-wins association-list lookup, modelling Python dict indexing for a
dict built from a JSON object (later duplicate keys overwrite earlier ones). -/
def pyLookup : List (String × Py) → String → Option Py
  | [], _ => Option.none
  | kv :: rest, k =>
      match pyLookup rest k with
      | Option.some v => Option.some v
      | Option.none => if kv.1 = k then Option.some kv.2 else Option.none

/-- `data.get(k, default)`. -/
def pyGetD (d : List (String × Py)) (k : String) (dflt : Py) : Py :=
  (pyLookup d k).getD dflt

/-- `k in data`. -/
def pyContains (d : List (String × Py)) (k : String) : Bool :=
  (pyLookup d k).isSome

/-- `as_str_or_none` from `src/server.py:71-75`: `None` stays absent, any
other value is stringified and stripped, and an empty result means absent. -/
def as_str_or_none : Py → Option String
  | Py.none => Option.none
  | v => let s := pyStrip (pyStr v); if s = "" then Option.none else Option.some s

/-- Python `str.replace(old, new)` on character lists: every
non-overlapping occurrence of `old`, scanned left to right, is replaced.
The extra `Nat` argument is fuel (instantiated with the input length, an
upper bound on the steps needed) so that the definition is structurally
recursive and computes by kernel reduction.  (The webhook only calls this
with the fixed non-empty contract suffixes, for which this matches
CPython.) -/
def listReplaceGo (old new : List Char) : Nat → List Char → List Char
  | 0, l => l
  | _ + 1, [] => []
  | fuel + 1, c :: rest =>
      if old ≠ [] ∧ old.isPrefixOf (c :: rest) then
        new ++ listReplaceGo old new fuel (rest.drop (old.length - 1))
      else
        c :: listReplaceGo old new fuel rest

/-- Python `str.replace(old, new)` (non-empty `old`). -/
def strReplace (s old new : String) : String :=
  String.mk (listReplaceGo old.data new.data s.data.length s.data)

/-- The known contract-type suffixes, in the order the source checks them
(`src/server.py:65`). -/
def SUFFIXES : List String :=
  ["_UMCBL", "_DMCBL", "_CMCBL", "_SUMCBL", "_SDMCBL", "_SCMCBL"]

/-- Body of the suffix loop of `normalize_symbol` (`src/server.py:64-68`):
the first suffix the symbol ends with is replaced (every occurrence, since
the source uses `str.replace`); otherwise the symbol passes through. -/
def normalizeGo (symbol : String) : List String → String
  | [] => symbol
  | suf :: rest =>
      if suf.data.isSuffixOf symbol.data then strReplace symbol suf ""
      else normalizeGo symbol rest

/-- `normalize_symbol` from `src/server.py:64-68`. -/
def normalize_symbol (symbol : String) : String :=
  normalizeGo symbol SUFFIXES

/-! ### SHA-256, HMAC and Base64 (the primitives behind `sign_bitget`)

Bytes are `Nat` values below 256 and 32-bit words are `Nat` values reduced
modulo 2^32 with `w32`. -/

/-- Reduction modulo 2^32. -/
def w32 (n : Nat) : Nat := n % 4294967296

/-- Right rotation of a 32-bit word by `k` bits. -/
def rotr (k n : Nat) : Nat := n / 2 ^ k + n % 2 ^ k * 2 ^ (32 - k)

/-- Logical right shift by `k` bits. -/
def shr (k n : Nat) : Nat := n / 2 ^ k

/-- Bitwise complement of a 32-bit word. -/
def not32 (n : Nat) : Nat := 4294967295 - n

/-- SHA-256 big sigma 0. -/
def bSig0 (x : Nat) : Nat := rotr 2 x ^^^ rotr 13 x ^^^ rotr 22 x

/-- SHA-256 big sigma 1. -/
def bSig1 (x : Nat) : Nat := rotr 6 x ^^^ rotr 11 x ^^^ rotr 25 x

/-- SHA-256 small sigma 0. -/
def sSig0 (x : Nat) : Nat := rotr 7 x ^^^ rotr 18 x ^^^ shr 3 x

/-- SHA-256 small sigma 1. -/
def sSig1 (x : Nat) : Nat := rotr 17 x ^^^ rotr 19 x ^^^ shr 10 x

/-- SHA-256 choice function. -/
def shaCh (e f g : Nat) : Nat := (e &&& f) ^^^ (not32 e &&& g)

/-- SHA-256 majority function. -/
def shaMaj (a b c : Nat) : Nat := (a &&& b) ^^^ (a &&& c) ^^^ (b &&& c)

/-- The SHA-256 round constants (decimal values of the standard table). -/
def shaK : List Nat :=
  [1116352408, 1899447441, 3049323471, 3921009573, 961987163, 1508970993,
   2453635748, 2870763221, 3624381080, 310598401, 607225278, 1426881987,
   1925078388, 2162078206, 2614888103, 3248222580, 3835390401, 4022224774,
   264347078, 604807628, 770255983, 1249150122, 1555081692, 1996064986,
   2554220882, 2821834349, 2952996808, 3210313671, 3336571891, 3584528711,
   113926993, 338241895, 666307205, 773529912, 1294757372, 1396182291,
   1695183700, 1986661051, 2177026350, 2456956037, 2730485921, 2820302411,
   3259730800, 3345764771, 3516065817, 3600352804, 4094571909, 275423344,
   430227734, 506948616, 659060556, 883997877, 958139571, 1322822218,
   1537002063, 1747873779, 1955562222, 2024104815, 2227730452, 2361852424,
   2428436474, 2756734187, 3204031479, 3329325298]

/-- The SHA-256 initial state (decimal values of the standard table). -/
def shaH0 : List Nat :=
  [1779033703, 3144134277, 1013904242, 2773480762,
   1359893119, 2600822924, 528734635, 1541459225]

/-- Big-endian bytes (`k` of them) of a natural number. -/
def natToBytesBE : Nat → Nat → List Nat
  | 0, _ => []
  | k + 1, n => natToBytesBE k (n / 256) ++ [n % 256]

/-- Group a byte list into big-endian 32-bit words (length assumed to be a
multiple of 4, which padding guarantees). -/
def bytesToWords : List Nat → List Nat
  | b0 :: b1 :: b2 :: b3 :: rest =>
      (((b0 * 256 + b1) * 256 + b2) * 256 + b3) :: bytesToWords rest
  | _ => []

/-- SHA-256 message padding: append `0x80`, zeros to 56 mod 64, then the
bit length as 8 big-endian bytes. -/
def shaPad (msg : List Nat) : List Nat :=
  msg ++ 128 :: List.replicate ((119 - msg.length % 64) % 64) 0
    ++ natToBytesBE 8 (8 * msg.length)

/-- Split a word list into blocks of 16 words. -/
def chunkWords : List Nat → List (List Nat)
  | [] => []
  | w :: ws => (w :: ws).take 16 :: chunkWords ((w :: ws).drop 16)
termination_by ws => ws.length
decreasing_by
  simp only [List.length_drop, List.length_cons]
  omega

/-- Extend a 16-word block by `n` further schedule words. -/
def extendW (w : List Nat) : Nat → List Nat
  | 0 => w
  | n + 1 =>
      extendW (w ++ [w32 (sSig1 (w.getD (w.length - 2) 0) + w.getD (w.length - 7) 0
        + sSig0 (w.getD (w.length - 15) 0) + w.getD (w.length - 16) 0)]) n

/-- The 64 SHA-256 rounds over the zipped schedule/constant list. -/
def shaRounds : List (Nat × Nat) →
    Nat × Nat × Nat × Nat × Nat × Nat × Nat × Nat →
    Nat × Nat × Nat × Nat × Nat × Nat × Nat × Nat
  | [], st => st
  | (wi, ki) :: rest, (a, b, c, d, e, f, g, h) =>
      let t1 := w32 (h + bSig1 e + shaCh e f g + ki + wi)
      let t2 := w32 (bSig0 a + shaMaj a b c)
      shaRounds rest (w32 (t1 + t2), a, b, c, w32 (d + t1), e, f, g)

/-- One SHA-256 compression step. -/
def shaCompress (st : List Nat) (block : List Nat) : List Nat :=
  let w := extendW block 48
  let s0 := st.getD 0 0
  let s1 := st.getD 1 0
  let s2 := st.getD 2 0
  let s3 := st.getD 3 0
  let s4 := st.getD 4 0
  let s5 := st.getD 5 0
  let s6 := st.getD 6 0
  let s7 := st.getD 7 0
  match shaRounds (w.zip shaK) (s0, s1, s2, s3, s4, s5, s6, s7) with
  | (a, b, c, d, e, f, g, h) =>
      [w32 (s0 + a), w32 (s1 + b), w32 (s2 + c), w32 (s3 + d),
       w32 (s4 + e), w32 (s5 + f), w32 (s6 + g), w32 (s7 + h)]

/-- SHA-256 of a byte list, as a 32-byte list. -/
def sha256 (msg : List Nat) : List Nat :=
  ((chunkWords (bytesToWords (shaPad msg))).foldl shaCompress shaH0).map
    (natToBytesBE 4) |>.flatten

/-- UTF-8 bytes of one character. -/
def utf8Char (c : Char) : List Nat :=
  let n := c.toNat
  if n < 128 then [n]
  else if n < 2048 then [192 + n / 64, 128 + n % 64]
  else if n < 65536 then [224 + n / 4096, 128 + n / 64 % 64, 128 + n % 64]
  else [240 + n / 262144, 128 + n / 4096 % 64, 128 + n / 64 % 64, 128 + n % 64]

/-- UTF-8 encoding of a string (`str.encode()`). -/
def utf8Encode (s : String) : List Nat :=
  (s.data.map utf8Char).flatten

/-- The Base64 alphabet. -/
def b64Char (n : Nat) : Char :=
  "ABCDEFGHIJKLMNOPQRSTUVWXYZabcdefghijklmnopqrstuvwxyz0123456789+/".data.getD n 'A'

/-- Standard Base64 encoding with padding (`base64.b64encode`). -/
def base64Encode : List Nat → String
  | [] => ""
  | [b0] => String.mk [b64Char (b0 / 4), b64Char (b0 % 4 * 16), '=', '=']
  | [b0, b1] =>
      String.mk [b64Char (b0 / 4), b64Char (b0 % 4 * 16 + b1 / 16),
        b64Char (b1 % 16 * 4), '=']
  | b0 :: b1 :: b2 :: rest =>
      String.mk [b64Char (b0 / 4), b64Char (b0 % 4 * 16 + b1 / 16),
        b64Char (b1 % 16 * 4 + b2 / 64), b64Char (b2 % 64)] ++ base64Encode rest

/-- HMAC-SHA256 (`hmac.new(key, msg, hashlib.sha256).digest()`). -/
def hmacSha256 (key msg : List Nat) : List Nat :=
  let k0 := if 64 < key.length then sha256 key else key
  let k1 := k0 ++ List.replicate (64 - k0.length) 0
  sha256 ((k1.map fun b => b ^^^ 92) ++ sha256 ((k1.map fun b => b ^^^ 54) ++ msg))

/-- `sign_bitget` from `src/server.py:54-61`: Base64 of the HMAC-SHA256,
keyed by the API secret, of `ts + method + path + body`.  The secret is a
parameter here because the source reads it from process configuration. -/
def sign_bitget (secret ts method path body : String) : String :=
  base64Encode (hmacSha256 (utf8Encode secret)
    (utf8Encode (ts ++ method ++ path ++ body)))

/-! ### Canonical JSON serialization (`compact_json`) -/

/-- Ordering of body entries by key, as `json.dumps(sort_keys=True)` sorts
dict keys. -/
def keyLE (a b : String × String) : Prop := a.1 ≤ b.1

instance : DecidableRel keyLE := fun a b => inferInstanceAs (Decidable (a.1 ≤ b.1))

instance : IsTotal (String × String) keyLE := ⟨fun a b => le_total a.1 b.1⟩

instance : IsTrans (String × String) keyLE := ⟨fun _ _ _ h1 h2 => le_trans h1 h2⟩

/-- JSON escape of one character, as `json.dumps` with its default
`ensure_ascii=True` produces it: quote, backslash and the control shorts,
`\u` escapes for other controls and for everything outside printable
ASCII (with surrogate pairs above the BMP). -/
def jsonEscChar (c : Char) : String :=
  if c = '"' then "\\\""
  else if c = '\\' then "\\\\"
  else if c = '\n' then "\\n"
  else if c = '\r' then "\\r"
  else if c = '\t' then "\\t"
  else if c = Char.ofNat 8 then "\\b"
  else if c = Char.ofNat 12 then "\\f"
  else if c.toNat < 32 ∨ 126 < c.toNat then
    if c.toNat < 65536 then "\\u" ++ hex4 c.toNat
    else "\\u" ++ hex4 (55296 + (c.toNat - 65536) / 1024)
      ++ "\\u" ++ hex4 (56320 + (c.toNat - 65536) % 1024)
  else String.mk [c]

/-- A JSON string literal. -/
def jsonQuote (s : String) : String :=
  "\"" ++ String.join (s.data.map jsonEscChar) ++ "\""

/-- `compact_json` from `src/server.py:50-51`:
`json.dumps(obj, separators=(",", ":"), sort_keys=True)` for a dict of
string values — keys sorted, no whitespace. -/
def compact_json (obj : List (String × String)) : String :=
  "\x7b" ++ String.intercalate ","
    ((List.insertionSort keyLE obj).map fun kv => jsonQuote kv.1 ++ ":" ++ jsonQuote kv.2)
  ++ "\x7d"

/-! ### Configuration, constants and the webhook handler -/

/-- The process configuration read from environment variables at startup
(`src/server.py:15-28`). -/
structure Config where
  TV_WEBHOOK_TOKEN : String
  BITGET_API_KEY : String
  BITGET_API_SECRET : String
  BITGET_API_PASSPHRASE : String
  BITGET_LIVE_TRADING : Bool

/-- `src/server.py:33-35`. -/
def PRODUCT_TYPE : String := "USDT-FUTURES"

/-- `src/server.py:34`. -/
def MARGIN_MODE : String := "crossed"

/-- `src/server.py:35`. -/
def MARGIN_COIN : String := "USDT"

/-- `src/server.py:23`. -/
def BITGET_BASE_URL : String := "https://api.bitget.com"

/-- The skip set `src/server.py:40`. -/
def TV_SKIP_ORDER_IDS : List String := ["Exit Long", "Exit Short"]

/-- The execute-comment set `src/server.py:41` (only logged; it does not
change the control path). -/
def TV_EXECUTE_COMMENTS : List String := ["NY Session Close", "Daily Close"]

/-- The outbound exchange request of the live branch: URL, headers and the
raw string body handed to `requests.post` (`src/server.py:209`). -/
structure OutRequest where
  url : String
  headers : List (String × String)
  body : String
deriving DecidableEq

/-- Result of one handler run.  `okIgnored`, `okSkipped` and `okSafe`
model the 200 acknowledgments `{"ok": true, "mode": "ignored"}`,
`{"ok": true, "mode": "skipped"}` and
`{"ok": true, "mode": "safe", "would_send": body}`; `httpError` models a
raised `HTTPException(status_code, detail)`; `sendLive` models the live
branch performing exactly one HTTP POST with the given request and
relaying the exchange response (the exchange itself is outside the
model). -/
inductive HandlerResult where
  | httpError : Nat → String → HandlerResult
  | okIgnored : HandlerResult
  | okSkipped : HandlerResult
  | okSafe : List (String × String) → HandlerResult
  | sendLive : OutRequest → HandlerResult
deriving DecidableEq

/-- The order-body dict built at `src/server.py:159-183`, as a function of
the locals of the handler; entries are listed in insertion order. -/
def mkOrderBody (symbol qty action trade_side order_type reduce_only : String)
    (price : Option String) (force : String)
    (tp_trigger sl_trigger tp_exec : Option String) : List (String × String) :=
  let body := [("symbol", symbol), ("productType", PRODUCT_TYPE),
    ("marginMode", MARGIN_MODE), ("marginCoin", MARGIN_COIN), ("size", qty),
    ("side", action), ("tradeSide", trade_side), ("orderType", order_type),
    ("reduceOnly", reduce_only)]
  let body := if order_type = "limit" then
      body ++ [("price", price.getD ""), ("force", force)]
    else body
  let body := match tp_trigger with
    | Option.some t => body ++ [("presetStopSurplusPrice", t)]
    | Option.none => body
  let body := match sl_trigger with
    | Option.some t => body ++ [("presetStopLossPrice", t)]
    | Option.none => body
  match tp_exec with
  | Option.some t => body ++ [("presetStopSurplusExecutePrice", t)]
  | Option.none => body

/-- The dispatch tail of the handler (`src/server.py:188-209`): serialize
the body, sign it, assemble headers; in safe mode return the would-be
body, in live mode issue the POST.  `ts` is the `now_ms()` timestamp,
passed in because the clock is external. -/
def dispatchOrder (cfg : Config) (ts : String) (body : List (String × String)) :
    HandlerResult :=
  let path := "/api/v2/mix/order/place-order"
  let body_str := compact_json body
  let sign := sign_bitget cfg.BITGET_API_SECRET ts "POST" path body_str
  let headers := [("ACCESS-KEY", cfg.BITGET_API_KEY), ("ACCESS-SIGN", sign),
    ("ACCESS-TIMESTAMP", ts), ("ACCESS-PASSPHRASE", cfg.BITGET_API_PASSPHRASE),
    ("Content-Type", "application/json"), ("locale", "en-US")]
  if cfg.BITGET_LIVE_TRADING = false then HandlerResult.okSafe body
  else HandlerResult.sendLive ⟨BITGET_BASE_URL ++ path, headers, body_str⟩

/-- The `/tv` endpoint handler `tv_webhook` (`src/server.py:82-214`),
applied to the decoded payload dict.  `tv_comment` is read by the source
only to print an informational line, so it does not appear here. -/
def tv_webhook (cfg : Config) (data : List (String × Py)) (ts : String) :
    HandlerResult :=
  if pyEqStr (pyGetD data "token" Py.none) cfg.TV_WEBHOOK_TOKEN = false then
    HandlerResult.httpError 401 "Invalid token"
  else if pyEqStr (pyGetD data "type" Py.none) "order" = false then
    HandlerResult.okIgnored
  else if (["symbol", "action", "qty"].filter fun k => pyContains data k = false) ≠ [] then
    HandlerResult.httpError 400 ("Missing fields: " ++ "[" ++ String.intercalate ", "
      ((["symbol", "action", "qty"].filter fun k => pyContains data k = false).map pyReprStr) ++ "]")
  else if cfg.BITGET_API_KEY = "" ∨ cfg.BITGET_API_SECRET = ""
      ∨ cfg.BITGET_API_PASSPHRASE = "" then
    HandlerResult.httpError 500 "Missing Bitget API credentials"
  else
    let symbol := normalize_symbol (pyStr (pyGetD data "symbol" Py.none))
    let action := pyLower (pyStr (pyGetD data "action" Py.none))
    let qty := pyStr (pyGetD data "qty" Py.none)
    let order_type := pyLower (pyStr (pyGetD data "order_type" (Py.str "market")))
    let reduce_only_bool := pyTruthy (pyGetD data "reduce_only" (Py.bool false))
    let is_long : Bool := action == "buy"
    let tv_order_id := pyStrip (pyStr (pyGetD data "tv_order_id" (Py.str "")))
    if tv_order_id ∈ TV_SKIP_ORDER_IDS then
      HandlerResult.okSkipped
    else
      let trade_side := if reduce_only_bool then "close" else "open"
      let reduce_only := if reduce_only_bool then "YES" else "NO"
      let price := as_str_or_none (pyGetD data "price" Py.none)
      let force := pyLower (pyStr (pyGetD data "force" (Py.str "gtc")))
      if order_type = "limit" ∧ price = Option.none then
        HandlerResult.httpError 400 "Missing price for limit order"
      else
        let price := if order_type = "limit" then price else Option.none
        let tps :=
          if is_long then
            (as_str_or_none (pyGetD data "tp_long" Py.none),
             as_str_or_none (pyGetD data "tp_exec_long" Py.none),
             as_str_or_none (pyGetD data "sl_long" Py.none))
          else
            (as_str_or_none (pyGetD data "tp_short" Py.none),
             as_str_or_none (pyGetD data "tp_exec_short" Py.none),
             as_str_or_none (pyGetD data "sl_short" Py.none))
        dispatchOrder cfg ts
          (mkOrderBody symbol qty action trade_side order_type reduce_only
            price force tps.1 tps.2.2 tps.2.1)

/-- The order body of a safe-mode acknowledgment, field by field (the
claims below read the would-be order through this projection). -/
def bodyField (r : HandlerResult) (k : String) : Option String :=
  match r with
  | HandlerResult.okSafe b => List.lookup k b
  | _ => Option.none

/-- Whether the run ended in the safe-mode acknowledgment. -/
def isSafe : HandlerResult → Bool
  | HandlerResult.okSafe _ => true
  | _ => false

/-- The outbound exchange call of a run, when one happened. -/
def sentRequest : HandlerResult → Option OutRequest
  | HandlerResult.sendLive r => Option.some r
  | _ => Option.none

/-! ### Strict JSON decoding (`await req.json()`, i.e. `json.loads`)

A fuel-indexed recursive-descent parser for the JSON fragment the model
covers (no floats — a number with a fraction or exponent fails the parse;
no `NaN`/`Infinity`).  `json.loads` is strict: raw control characters in
strings are rejected, and trailing non-whitespace input is an error. -/

/-- JSON whitespace. -/
def isJsonWs (c : Char) : Bool :=
  c = ' ' ∨ c = '\t' ∨ c = '\n' ∨ c = '\r'

/-- Drop leading JSON whitespace. -/
def skipWs (cs : List Char) : List Char := cs.dropWhile isJsonWs

/-- ASCII digit test. -/
def isDigitC (c : Char) : Bool := '0' ≤ c ∧ c ≤ '9'

/-- Hex digit value. -/
def hexVal (c : Char) : Option Nat :=
  if '0' ≤ c ∧ c ≤ '9' then Option.some (c.toNat - 48)
  else if 'a' ≤ c ∧ c ≤ 'f' then Option.some (c.toNat - 87)
  else if 'A' ≤ c ∧ c ≤ 'F' then Option.some (c.toNat - 55)
  else Option.none

/-- Decode one backslash escape (the backslash itself already consumed),
returning the decoded character and the remaining input.  A `\uXXXX` high
surrogate followed by a low surrogate pair is combined into one scalar
value, as `json.loads` does.  (A lone surrogate, which Python would keep
as an unpaired surrogate code unit, has no `Char` counterpart and decodes
to a default character here — no verified property involves one.) -/
def parseEsc : List Char → Option (Char × List Char)
  | '"' :: r => Option.some ('"', r)
  | '\\' :: r => Option.some ('\\', r)
  | '/' :: r => Option.some ('/', r)
  | 'b' :: r => Option.some (Char.ofNat 8, r)
  | 'f' :: r => Option.some (Char.ofNat 12, r)
  | 'n' :: r => Option.some ('\n', r)
  | 'r' :: r => Option.some ('\r', r)
  | 't' :: r => Option.some ('\t', r)
  | 'u' :: h1 :: h2 :: h3 :: h4 :: r =>
      match hexVal h1, hexVal h2, hexVal h3, hexVal h4 with
      | Option.some v1, Option.some v2, Option.some v3, Option.some v4 =>
          let code := ((v1 * 16 + v2) * 16 + v3) * 16 + v4
          if 55296 ≤ code ∧ code < 56320 then
            match r with
            | '\\' :: 'u' :: g1 :: g2 :: g3 :: g4 :: r2 =>
                match hexVal g1, hexVal g2, hexVal g3, hexVal g4 with
                | Option.some w1, Option.some w2, Option.some w3, Option.some w4 =>
                    let code2 := ((w1 * 16 + w2) * 16 + w3) * 16 + w4
                    if 56320 ≤ code2 ∧ code2 < 57344 then
                      Option.some (Char.ofNat
                        (65536 + (code - 55296) * 1024 + (code2 - 56320)), r2)
                    else Option.some (Char.ofNat code, '\\' :: 'u' :: g1 :: g2 :: g3 :: g4 :: r2)
                | _, _, _, _ => Option.some (Char.ofNat code, r)
            | _ => Option.some (Char.ofNat code, r)
          else Option.some (Char.ofNat code, r)
      | _, _, _, _ => Option.none
  | _ => Option.none

/-- Parse a JSON number (integers only; a fraction or exponent is outside
the model and fails). -/
def parseNum (cs : List Char) : Option (Py × List Char) :=
  let (neg, cs1) := match cs with
    | '-' :: r => (true, r)
    | _ => (false, cs)
  let digits := cs1.takeWhile isDigitC
  let rest := cs1.dropWhile isDigitC
  if digits = [] then Option.none
  else if 1 < digits.length ∧ digits.headD '0' = '0' then Option.none
  else match rest with
    | '.' :: _ => Option.none
    | 'e' :: _ => Option.none
    | 'E' :: _ => Option.none
    | _ =>
        let n : Nat := digits.foldl (fun a c => a * 10 + (c.toNat - 48)) 0
        Option.some (Py.int (if neg then -(n : Int) else (n : Int)), rest)

mutual

/-- Parse one JSON value at the head of the input. -/
def parseVal : Nat → List Char → Option (Py × List Char)
  | 0, _ => Option.none
  | fuel + 1, cs =>
      match cs with
      | 'n' :: 'u' :: 'l' :: 'l' :: rest => Option.some (Py.none, rest)
      | 't' :: 'r' :: 'u' :: 'e' :: rest => Option.some (Py.bool true, rest)
      | 'f' :: 'a' :: 'l' :: 's' :: 'e' :: rest => Option.some (Py.bool false, rest)
      | '"' :: rest =>
          match parseStrBody fuel rest with
          | Option.some (s, rest') => Option.some (Py.str (String.mk s), rest')
          | Option.none => Option.none
      | '[' :: rest =>
          match skipWs rest with
          | ']' :: rest' => Option.some (Py.list [], rest')
          | r => parseArrItems fuel r
      | '{' :: rest =>
          match skipWs rest with
          | '}' :: rest' => Option.some (Py.dict [], rest')
          | r => parseObjItems fuel r
      | c :: _ =>
          if c = '-' ∨ isDigitC c then parseNum cs else Option.none
      | [] => Option.none

/-- Parse the items of a non-empty JSON array, positioned at the first
element. -/
def parseArrItems : Nat → List Char → Option (Py × List Char)
  | 0, _ => Option.none
  | fuel + 1, cs =>
      match parseVal fuel cs with
      | Option.some (v, rest) =>
          match skipWs rest with
          | ',' :: rest' =>
              match parseArrItems fuel (skipWs rest') with
              | Option.some (Py.list xs, rest'') => Option.some (Py.list (v :: xs), rest'')
              | _ => Option.none
          | ']' :: rest' => Option.some (Py.list [v], rest')
          | _ => Option.none
      | Option.none => Option.none

/-- Parse the members of a non-empty JSON object, positioned at the first
key. -/
def parseObjItems : Nat → List Char → Option (Py × List Char)
  | 0, _ => Option.none
  | fuel + 1, cs =>
      match cs with
      | '"' :: rest =>
          match parseStrBody fuel rest with
          | Option.some (k, rest1) =>
              match skipWs rest1 with
              | ':' :: rest2 =>
                  match parseVal fuel (skipWs rest2) with
                  | Option.some (v, rest3) =>
                      match skipWs rest3 with
                      | ',' :: rest4 =>
                          match parseObjItems fuel (skipWs rest4) with
                          | Option.some (Py.dict kvs, rest5) =>
                              Option.some (Py.dict ((String.mk k, v) :: kvs), rest5)
                          | _ => Option.none
                      | '}' :: rest4 => Option.some (Py.dict [(String.mk k, v)], rest4)
                      | _ => Option.none
                  | Option.none => Option.none
              | _ => Option.none
          | Option.none => Option.none
      | _ => Option.none

/-- Parse a JSON string body, positioned after the opening quote; returns
the decoded characters and the input after the closing quote. -/
def parseStrBody : Nat → List Char → Option (List Char × List Char)
  | 0, _ => Option.none
  | fuel + 1, cs =>
      match cs with
      | [] => Option.none
      | '"' :: rest => Option.some ([], rest)
      | '\\' :: rest =>
          match parseEsc rest with
          | Option.some (c, rest') =>
              match parseStrBody fuel rest' with
              | Option.some (s, rest'') => Option.some (c :: s, rest'')
              | Option.none => Option.none
          | Option.none => Option.none
      | c :: rest =>
          if c.toNat < 32 then Option.none
          else match parseStrBody fuel rest with
            | Option.some (s, rest') => Option.some (c :: s, rest')
            | Option.none => Option.none

end

/-- `json.loads` on the modelled JSON fragment: parse one value surrounded
by optional whitespace; anything left over is an error. -/
def jsonLoads (s : String) : Option Py :=
  match parseVal (4 * (s.data.length + 1)) (skipWs s.data) with
  | Option.some (v, rest) => if skipWs rest = [] then Option.some v else Option.none
  | Option.none => Option.none

/-- Result of a run of the endpoint on the raw request body.  `handled`
wraps the handler result; `unhandledError` models an exception that
escapes the endpoint (a `json.JSONDecodeError` from `await req.json()`, or
an `AttributeError` when the parsed body is not a dict), which the
framework surfaces as a plain 500 response. -/
inductive RawResult where
  | handled : HandlerResult → RawResult
  | unhandledError : RawResult
deriving DecidableEq

/-- The endpoint on the raw body (`src/server.py:82-83` feeding the rest
of the handler): a single strict JSON parse; only a dict proceeds. -/
def tv_webhook_raw (cfg : Config) (raw : String) (ts : String) : RawResult :=
  match jsonLoads raw with
  | Option.some (Py.dict kvs) => RawResult.handled (tv_webhook cfg kvs ts)
  | _ => RawResult.unhandledError

/-! ## Reusable facts about the handler -/

/-- The token, message-type, required-field and credential checks all pass
(`src/server.py:86-102`). -/
abbrev PassesChecks (cfg : Config) (d : List (String × Py)) : Prop :=
  pyEqStr (pyGetD d "token" Py.none) cfg.TV_WEBHOOK_TOKEN = true ∧
  pyEqStr (pyGetD d "type" Py.none) "order" = true ∧
  pyContains d "symbol" = true ∧ pyContains d "action" = true ∧ pyContains d "qty" = true ∧
  cfg.BITGET_API_KEY ≠ "" ∧ cfg.BITGET_API_SECRET ≠ "" ∧ cfg.BITGET_API_PASSPHRASE ≠ ""

/-- The trimmed `tv_order_id` is not in the skip set (`src/server.py:120`). -/
abbrev NotSkipListed (d : List (String × Py)) : Prop :=
  pyStrip (pyStr (pyGetD d "tv_order_id" (Py.str ""))) ∉ TV_SKIP_ORDER_IDS

/-- The limit-order price precondition holds (`src/server.py:135-137`). -/
abbrev PriceOk (d : List (String × Py)) : Prop :=
  ¬(pyLower (pyStr (pyGetD d "order_type" (Py.str "market"))) = "limit" ∧
    as_str_or_none (pyGetD d "price" Py.none) = Option.none)

/-- The run reaches the order-building section of the handler. -/
abbrev ReachesBuild (cfg : Config) (d : List (String × Py)) : Prop :=
  PassesChecks cfg d ∧ NotSkipListed d ∧ PriceOk d

lemma tv_webhook_build_eq (cfg : Config) (d : List (String × Py)) (ts : String)
    (htok : pyEqStr (pyGetD d "token" Py.none) cfg.TV_WEBHOOK_TOKEN = true)
    (htype : pyEqStr (pyGetD d "type" Py.none) "order" = true)
    (hsym : pyContains d "symbol" = true)
    (hact : pyContains d "action" = true)
    (hqty : pyContains d "qty" = true)
    (hkey : cfg.BITGET_API_KEY ≠ "")
    (hsec : cfg.BITGET_API_SECRET ≠ "")
    (hpass : cfg.BITGET_API_PASSPHRASE ≠ "")
    (hskip : pyStrip (pyStr (pyGetD d "tv_order_id" (Py.str ""))) ∉ TV_SKIP_ORDER_IDS)
    (hprice : ¬(pyLower (pyStr (pyGetD d "order_type" (Py.str "market"))) = "limit"
        ∧ as_str_or_none (pyGetD d "price" Py.none) = Option.none)) :
    tv_webhook cfg d ts = dispatchOrder cfg ts (mkOrderBody
      (normalize_symbol (pyStr (pyGetD d "symbol" Py.none)))
      (pyStr (pyGetD d "qty" Py.none))
      (pyLower (pyStr (pyGetD d "action" Py.none)))
      (if pyTruthy (pyGetD d "reduce_only" (Py.bool false)) then "close" else "open")
      (pyLower (pyStr (pyGetD d "order_type" (Py.str "market"))))
      (if pyTruthy (pyGetD d "reduce_only" (Py.bool false)) then "YES" else "NO")
      (if pyLower (pyStr (pyGetD d "order_type" (Py.str "market"))) = "limit"
        then as_str_or_none (pyGetD d "price" Py.none) else Option.none)
      (pyLower (pyStr (pyGetD d "force" (Py.str "gtc"))))
      (if pyLower (pyStr (pyGetD d "action" Py.none)) == "buy"
        then as_str_or_none (pyGetD d "tp_long" Py.none)
        else as_str_or_none (pyGetD d "tp_short" Py.none))
      (if pyLower (pyStr (pyGetD d "action" Py.none)) == "buy"
        then as_str_or_none (pyGetD d "sl_long" Py.none)
        else as_str_or_none (pyGetD d "sl_short" Py.none))
      (if pyLower (pyStr (pyGetD d "action" Py.none)) == "buy"
        then as_str_or_none (pyGetD d "tp_exec_long" Py.none)
        else as_str_or_none (pyGetD d "tp_exec_short" Py.none))) := by
  simp only [tv_webhook]
  simp [htok, htype, hsym, hact, hqty, hkey, hsec, hpass, hskip, hprice]
  by_cases hb : pyLower (pyStr (pyGetD d "action" Py.none)) = "buy" <;> simp [hb]

lemma lookup_body_tradeSide (s q a t o r p f tp sl te) :
    List.lookup "tradeSide" (mkOrderBody s q a t o r p f tp sl te) = Option.some t := by
  unfold mkOrderBody
  by_cases h : o = "limit" <;> cases tp <;> cases sl <;> cases te <;> simp [h, List.lookup]

lemma lookup_body_side (s q a t o r p f tp sl te) :
    List.lookup "side" (mkOrderBody s q a t o r p f tp sl te) = Option.some a := by
  unfold mkOrderBody
  by_cases h : o = "limit" <;> cases tp <;> cases sl <;> cases te <;> simp [h, List.lookup]

lemma lookup_body_reduceOnly (s q a t o r p f tp sl te) :
    List.lookup "reduceOnly" (mkOrderBody s q a t o r p f tp sl te) = Option.some r := by
  unfold mkOrderBody
  by_cases h : o = "limit" <;> cases tp <;> cases sl <;> cases te <;> simp [h, List.lookup]

lemma lookup_body_price (s q a t o r p f tp sl te) :
    List.lookup "price" (mkOrderBody s q a t o r p f tp sl te) =
      if o = "limit" then Option.some (p.getD "") else Option.none := by
  unfold mkOrderBody
  by_cases h : o = "limit" <;> cases tp <;> cases sl <;> cases te <;> simp [h, List.lookup]

lemma lookup_body_force (s q a t o r p f tp sl te) :
    List.lookup "force" (mkOrderBody s q a t o r p f tp sl te) =
      if o = "limit" then Option.some f else Option.none := by
  unfold mkOrderBody
  by_cases h : o = "limit" <;> cases tp <;> cases sl <;> cases te <;> simp [h, List.lookup]

lemma lookup_body_tp (s q a t o r p f tp sl te) :
    List.lookup "presetStopSurplusPrice" (mkOrderBody s q a t o r p f tp sl te) = tp := by
  unfold mkOrderBody
  by_cases h : o = "limit" <;> cases tp <;> cases sl <;> cases te <;> simp [h, List.lookup]

lemma lookup_body_sl (s q a t o r p f tp sl te) :
    List.lookup "presetStopLossPrice" (mkOrderBody s q a t o r p f tp sl te) = sl := by
  unfold mkOrderBody
  by_cases h : o = "limit" <;> cases tp <;> cases sl <;> cases te <;> simp [h, List.lookup]

lemma lookup_body_tpexec (s q a t o r p f tp sl te) :
    List.lookup "presetStopSurplusExecutePrice" (mkOrderBody s q a t o r p f tp sl te) = te := by
  unfold mkOrderBody
  by_cases h : o = "limit" <;> cases tp <;> cases sl <;> cases te <;> simp [h, List.lookup]

lemma dispatchOrder_safe (cfg : Config) (ts : String) (body : List (String × String))
    (h : cfg.BITGET_LIVE_TRADING = false) :
    dispatchOrder cfg ts body = HandlerResult.okSafe body := by
  simp [dispatchOrder, h]

lemma tv_webhook_skip_eq (cfg : Config) (d : List (String × Py)) (ts : String)
    (htok : pyEqStr (pyGetD d "token" Py.none) cfg.TV_WEBHOOK_TOKEN = true)
    (htype : pyEqStr (pyGetD d "type" Py.none) "order" = true)
    (hsym : pyContains d "symbol" = true)
    (hact : pyContains d "action" = true)
    (hqty : pyContains d "qty" = true)
    (hkey : cfg.BITGET_API_KEY ≠ "")
    (hsec : cfg.BITGET_API_SECRET ≠ "")
    (hpass : cfg.BITGET_API_PASSPHRASE ≠ "")
    (hskip : pyStrip (pyStr (pyGetD d "tv_order_id" (Py.str ""))) ∈ TV_SKIP_ORDER_IDS) :
    tv_webhook cfg d ts = HandlerResult.okSkipped := by
  simp only [tv_webhook]
  simp [htok, htype, hsym, hact, hqty, hkey, hsec, hpass, hskip]

lemma tv_webhook_limit_missing_price (cfg : Config) (d : List (String × Py)) (ts : String)
    (htok : pyEqStr (pyGetD d "token" Py.none) cfg.TV_WEBHOOK_TOKEN = true)
    (htype : pyEqStr (pyGetD d "type" Py.none) "order" = true)
    (hsym : pyContains d "symbol" = true)
    (hact : pyContains d "action" = true)
    (hqty : pyContains d "qty" = true)
    (hkey : cfg.BITGET_API_KEY ≠ "")
    (hsec : cfg.BITGET_API_SECRET ≠ "")
    (hpass : cfg.BITGET_API_PASSPHRASE ≠ "")
    (hskip : pyStrip (pyStr (pyGetD d "tv_order_id" (Py.str ""))) ∉ TV_SKIP_ORDER_IDS)
    (hlim : pyLower (pyStr (pyGetD d "order_type" (Py.str "market"))) = "limit")
    (hp : as_str_or_none (pyGetD d "price" Py.none) = Option.none) :
    tv_webhook cfg d ts = HandlerResult.httpError 400 "Missing price for limit order" := by
  simp only [tv_webhook]
  simp [htok, htype, hsym, hact, hqty, hkey, hsec, hpass, hskip, hlim, hp]

lemma tv_webhook_cases (cfg : Config) (d : List (String × Py)) (ts : String) :
    (∃ body, tv_webhook cfg d ts = dispatchOrder cfg ts body) ∨
    (∃ n s, tv_webhook cfg d ts = HandlerResult.httpError n s) ∨
    tv_webhook cfg d ts = HandlerResult.okIgnored ∨
    tv_webhook cfg d ts = HandlerResult.okSkipped := by
  simp only [tv_webhook]
  split
  · exact Or.inr (Or.inl ⟨401, "Invalid token", rfl⟩)
  split
  · exact Or.inr (Or.inr (Or.inl rfl))
  split
  · exact Or.inr (Or.inl ⟨400, _, rfl⟩)
  split
  · exact Or.inr (Or.inl ⟨500, "Missing Bitget API credentials", rfl⟩)
  split
  · exact Or.inr (Or.inr (Or.inr rfl))
  split
  · exact Or.inr (Or.inl ⟨400, "Missing price for limit order", rfl⟩)
  exact Or.inl ⟨_, rfl⟩

/-- The invariant the live dispatch establishes: whenever an exchange call
is made, the `ACCESS-SIGN` header is the Bitget signature computed over
the very string sent as the request body, and the remaining
authentication headers carry the configured credentials and the request
timestamp. -/
def sigHeaderOK (res : HandlerResult) (cfg : Config) (ts : String) : Prop :=
  match res with
  | HandlerResult.sendLive r =>
      r.url = BITGET_BASE_URL ++ "/api/v2/mix/order/place-order" ∧
      List.lookup "ACCESS-SIGN" r.headers = Option.some (sign_bitget
        cfg.BITGET_API_SECRET ts "POST" "/api/v2/mix/order/place-order" r.body) ∧
      List.lookup "ACCESS-KEY" r.headers = Option.some cfg.BITGET_API_KEY ∧
      List.lookup "ACCESS-TIMESTAMP" r.headers = Option.some ts ∧
      List.lookup "ACCESS-PASSPHRASE" r.headers = Option.some cfg.BITGET_API_PASSPHRASE
  | _ => True

/-- The part of `sigHeaderOK` claim C3 needs: the signed string is the
sent string. -/
def signedMatchesSentBody (res : HandlerResult) (cfg : Config) (ts : String) : Prop :=
  match res with
  | HandlerResult.sendLive r =>
      List.lookup "ACCESS-SIGN" r.headers = Option.some (sign_bitget
        cfg.BITGET_API_SECRET ts "POST" "/api/v2/mix/order/place-order" r.body)
  | _ => True

lemma dispatch_sigHeaderOK (cfg : Config) (ts : String) (body : List (String × String)) :
    sigHeaderOK (dispatchOrder cfg ts body) cfg ts := by
  simp only [dispatchOrder]
  split_ifs <;> simp [sigHeaderOK, List.lookup]

lemma sigHeaderOK_all (cfg : Config) (d : List (String × Py)) (ts : String) :
    sigHeaderOK (tv_webhook cfg d ts) cfg ts := by
  rcases tv_webhook_cases cfg d ts with ⟨body, h⟩ | ⟨n, s, h⟩ | h | h <;> rw [h]
  · exact dispatch_sigHeaderOK cfg ts body
  · trivial
  · trivial
  · trivial

lemma signedMatchesSentBody_all (cfg : Config) (d : List (String × Py)) (ts : String) :
    signedMatchesSentBody (tv_webhook cfg d ts) cfg ts := by
  have h := sigHeaderOK_all cfg d ts
  revert h
  cases tv_webhook cfg d ts <;> simp [sigHeaderOK, signedMatchesSentBody]
  intro _ h _ _ _
  exact h

lemma tv_webhook_no_send (cfg : Config) (hlive : cfg.BITGET_LIVE_TRADING = false)
    (d : List (String × Py)) (ts : String) (r : OutRequest) :
    tv_webhook cfg d ts ≠ HandlerResult.sendLive r := by
  rcases tv_webhook_cases cfg d ts with ⟨body, h⟩ | ⟨n, s, h⟩ | h | h <;> rw [h]
  · rw [dispatchOrder_safe cfg ts body hlive]
    simp
  · simp
  · simp
  · simp

lemma tv_webhook_safe_body (cfg : Config) (d : List (String × Py)) (ts : String)
    (h : ReachesBuild cfg d) (hlive : cfg.BITGET_LIVE_TRADING = false) :
    tv_webhook cfg d ts = HandlerResult.okSafe (mkOrderBody
      (normalize_symbol (pyStr (pyGetD d "symbol" Py.none)))
      (pyStr (pyGetD d "qty" Py.none))
      (pyLower (pyStr (pyGetD d "action" Py.none)))
      (if pyTruthy (pyGetD d "reduce_only" (Py.bool false)) then "close" else "open")
      (pyLower (pyStr (pyGetD d "order_type" (Py.str "market"))))
      (if pyTruthy (pyGetD d "reduce_only" (Py.bool false)) then "YES" else "NO")
      (if pyLower (pyStr (pyGetD d "order_type" (Py.str "market"))) = "limit"
        then as_str_or_none (pyGetD d "price" Py.none) else Option.none)
      (pyLower (pyStr (pyGetD d "force" (Py.str "gtc"))))
      (if pyLower (pyStr (pyGetD d "action" Py.none)) == "buy"
        then as_str_or_none (pyGetD d "tp_long" Py.none)
        else as_str_or_none (pyGetD d "tp_short" Py.none))
      (if pyLower (pyStr (pyGetD d "action" Py.none)) == "buy"
        then as_str_or_none (pyGetD d "sl_long" Py.none)
        else as_str_or_none (pyGetD d "sl_short" Py.none))
      (if pyLower (pyStr (pyGetD d "action" Py.none)) == "buy"
        then as_str_or_none (pyGetD d "tp_exec_long" Py.none)
        else as_str_or_none (pyGetD d "tp_exec_short" Py.none))) := by
  obtain ⟨⟨h1, h2, h3, h4, h5, h6, h7, h8⟩, h9, h10⟩ := h
  rw [tv_webhook_build_eq cfg d ts h1 h2 h3 h4 h5 h6 h7 h8 h9 h10]
  exact dispatchOrder_safe cfg ts _ hlive

/-! ## Noninterference of the non-selected take-profit/stop-loss group -/

/-- The short-side payload fields. -/
def SHORT_FIELDS : List String := ["tp_short", "tp_exec_short", "sl_short"]

/-- The long-side payload fields. -/
def LONG_FIELDS : List String := ["tp_long", "tp_exec_long", "sl_long"]

/-- A payload with the entries for the given keys removed; two payloads
agree outside `ks` exactly when these projections are equal. -/
def withoutKeys (d : List (String × Py)) (ks : List String) : List (String × Py) :=
  d.filter fun kv => !(ks.contains kv.1)

lemma pyLookup_filter (p : String × Py → Bool) (d : List (String × Py)) (k : String)
    (hk : ∀ v, p (k, v) = true) : pyLookup (d.filter p) k = pyLookup d k := by
  induction d with
  | nil => rfl
  | cons kv rest ih =>
      by_cases hp : p kv = true
      · rw [List.filter_cons_of_pos hp]
        simp only [pyLookup, ih]
      · rw [List.filter_cons_of_neg (by simp_all)]
        have hne : kv.1 ≠ k := by
          intro he
          apply hp
          have hkv : kv = (k, kv.2) := by rw [← he]
          rw [hkv]
          exact hk kv.2
        rw [ih]
        simp only [pyLookup]
        cases pyLookup rest k with
        | some v => rfl
        | none => simp [hne]

lemma pyLookup_eq_of_withoutKeys (d1 d2 : List (String × Py)) (ks : List String)
    (h : withoutKeys d1 ks = withoutKeys d2 ks) (k : String) (hk : ks.contains k = false) :
    pyLookup d1 k = pyLookup d2 k := by
  have h1 := pyLookup_filter (fun kv => !(ks.contains kv.1)) d1 k
    (fun v => by show (!(ks.contains k)) = true; rw [hk]; rfl)
  have h2 := pyLookup_filter (fun kv => !(ks.contains kv.1)) d2 k
    (fun v => by show (!(ks.contains k)) = true; rw [hk]; rfl)
  rw [← h1, ← h2]
  exact congrArg (fun l => pyLookup l k) h

lemma tv_webhook_shorts_irrelevant (cfg : Config) (d1 d2 : List (String × Py)) (ts : String)
    (hagree : withoutKeys d1 SHORT_FIELDS = withoutKeys d2 SHORT_FIELDS)
    (hbuy : pyLower (pyStr (pyGetD d1 "action" Py.none)) = "buy") :
    tv_webhook cfg d1 ts = tv_webhook cfg d2 ts := by
  have hk : ∀ k, SHORT_FIELDS.contains k = false → pyLookup d1 k = pyLookup d2 k :=
    pyLookup_eq_of_withoutKeys d1 d2 SHORT_FIELDS hagree
  have htok := hk "token" (by decide)
  have htyp := hk "type" (by decide)
  have hsym := hk "symbol" (by decide)
  have hact := hk "action" (by decide)
  have hqty := hk "qty" (by decide)
  have hot := hk "order_type" (by decide)
  have hro := hk "reduce_only" (by decide)
  have htvid := hk "tv_order_id" (by decide)
  have hpr := hk "price" (by decide)
  have hfo := hk "force" (by decide)
  have htpl := hk "tp_long" (by decide)
  have htel := hk "tp_exec_long" (by decide)
  have hsll := hk "sl_long" (by decide)
  have hbuy2 : pyLower (pyStr (pyGetD d2 "action" Py.none)) = "buy" := by
    rw [pyGetD, ← hact, ← pyGetD]
    exact hbuy
  simp only [tv_webhook, pyGetD, pyContains, List.filter_cons, List.filter_nil,
    htok, htyp, hsym, hact, hqty, hot, hro, htvid, hpr, hfo, htpl, htel, hsll]
  rw [pyGetD] at hbuy2
  simp [hbuy2]

lemma tv_webhook_longs_irrelevant (cfg : Config) (d1 d2 : List (String × Py)) (ts : String)
    (hagree : withoutKeys d1 LONG_FIELDS = withoutKeys d2 LONG_FIELDS)
    (hnb : pyLower (pyStr (pyGetD d1 "action" Py.none)) ≠ "buy") :
    tv_webhook cfg d1 ts = tv_webhook cfg d2 ts := by
  have hk : ∀ k, LONG_FIELDS.contains k = false → pyLookup d1 k = pyLookup d2 k :=
    pyLookup_eq_of_withoutKeys d1 d2 LONG_FIELDS hagree
  have htok := hk "token" (by decide)
  have htyp := hk "type" (by decide)
  have hsym := hk "symbol" (by decide)
  have hact := hk "action" (by decide)
  have hqty := hk "qty" (by decide)
  have hot := hk "order_type" (by decide)
  have hro := hk "reduce_only" (by decide)
  have htvid := hk "tv_order_id" (by decide)
  have hpr := hk "price" (by decide)
  have hfo := hk "force" (by decide)
  have htps := hk "tp_short" (by decide)
  have htes := hk "tp_exec_short" (by decide)
  have hsls := hk "sl_short" (by decide)
  have hnb2 : pyLower (pyStr ((pyLookup d2 "action").getD Py.none)) ≠ "buy" := by
    rw [← hact]
    rw [pyGetD] at hnb
    exact hnb
  simp only [tv_webhook, pyGetD, pyContains, List.filter_cons, List.filter_nil,
    htok, htyp, hsym, hact, hqty, hot, hro, htvid, hpr, hfo, htps, htes, hsls]
  simp [hnb2]

/-! ## Determinism of the canonical serialization -/

/-- Strict ordering of body entries by key. -/
def keyLT (a b : String × String) : Prop := a.1 < b.1

instance : IsAntisymm (String × String) keyLT :=
  ⟨fun a _ h1 h2 => absurd (lt_trans h1 h2) (lt_irrefl a.1)⟩

lemma compact_json_perm (l1 l2 : List (String × String)) (hp : l1.Perm l2)
    (hnd : (l1.map Prod.fst).Nodup) : compact_json l1 = compact_json l2 := by
  have hp1 := List.perm_insertionSort keyLE l1
  have hp2 := List.perm_insertionSort keyLE l2
  have hs1 := List.sorted_insertionSort keyLE l1
  have hs2 := List.sorted_insertionSort keyLE l2
  have hperm : (List.insertionSort keyLE l1).Perm (List.insertionSort keyLE l2) :=
    hp1.trans (hp.trans hp2.symm)
  have hnd1 : ((List.insertionSort keyLE l1).map Prod.fst).Nodup :=
    ((hp1.map Prod.fst).nodup_iff).mpr hnd
  have hnd2 : ((List.insertionSort keyLE l2).map Prod.fst).Nodup :=
    ((hperm.map Prod.fst).nodup_iff).mp hnd1
  have hlt1 : (List.insertionSort keyLE l1).Sorted keyLT := by
    have hne := (List.pairwise_map).mp hnd1
    exact (hs1.and hne).imp fun h => lt_of_le_of_ne h.1 h.2
  have hlt2 : (List.insertionSort keyLE l2).Sorted keyLT := by
    have hne := (List.pairwise_map).mp hnd2
    exact (hs2.and hne).imp fun h => lt_of_le_of_ne h.1 h.2
  have heq : List.insertionSort keyLE l1 = List.insertionSort keyLE l2 :=
    List.eq_of_perm_of_sorted hperm hlt1 hlt2
  unfold compact_json
  rw [heq]

/-! ## Behaviour of `normalize_symbol` -/

lemma suffix_append_iff_of_le (l1 l2 p : List Char) (h : l1.length ≤ l2.length) :
    l1 <:+ (p ++ l2) ↔ l1 <:+ l2 := by
  constructor
  · intro hs
    have he := List.suffix_iff_eq_drop.mp hs
    rw [List.length_append] at he
    have harith : p.length + l2.length - l1.length = p.length + (l2.length - l1.length) := by
      omega
    rw [harith, List.drop_append] at he
    rw [he]
    exact List.drop_suffix _ _
  · intro hs
    exact hs.trans (List.suffix_append p l2)

lemma not_isSuffixOf_append (l1 l2 p : List Char) (hlen : l1.length ≤ l2.length)
    (hns : ¬ l1 <:+ l2) : l1.isSuffixOf (p ++ l2) = false := by
  rw [← Bool.not_eq_true, List.isSuffixOf_iff_suffix]
  intro h
  exact hns ((suffix_append_iff_of_le l1 l2 p hlen).mp h)

lemma isSuffixOf_append_self (l1 p : List Char) : l1.isSuffixOf (p ++ l1) = true :=
  List.isSuffixOf_iff_suffix.mpr (List.suffix_append p l1)

lemma listReplaceGo_nil (old new : List Char) (fuel : Nat) :
    listReplaceGo old new fuel [] = [] := by
  cases fuel <;> rfl

lemma listReplaceGo_single (old : List Char) (hne : old ≠ []) :
    ∀ (p : List Char) (fuel : Nat), (p ++ old).length ≤ fuel →
    ¬ old <:+: (p ++ old.dropLast) →
    listReplaceGo old [] fuel (p ++ old) = p := by
  intro p
  induction p with
  | nil =>
      intro fuel hfuel hocc
      simp only [List.nil_append] at hfuel hocc ⊢
      cases old with
      | nil => exact absurd rfl hne
      | cons c rest =>
          cases fuel with
          | zero => simp at hfuel
          | succ f =>
              rw [listReplaceGo]
              rw [if_pos ⟨List.cons_ne_nil c rest,
                List.isPrefixOf_iff_prefix.mpr (List.prefix_refl _)⟩]
              simp only [List.length_cons, Nat.add_sub_cancel, List.drop_length]
              rw [listReplaceGo_nil]
              rfl
  | cons c p' ih =>
      intro fuel hfuel hocc
      have hnp : old.isPrefixOf (c :: (p' ++ old)) = false := by
        rw [← Bool.not_eq_true, List.isPrefixOf_iff_prefix]
        intro hpre
        have hsplit : c :: (p' ++ old) = ((c :: p') ++ old.dropLast) ++ [old.getLast hne] := by
          rw [List.append_assoc, List.dropLast_append_getLast hne]
          rfl
        have hpre2 : ((c :: p') ++ old.dropLast) <+: (c :: (p' ++ old)) := by
          rw [hsplit]
          exact List.prefix_append _ _
        have hlen : old.length ≤ ((c :: p') ++ old.dropLast).length := by
          have hp0 : 0 < old.length := List.length_pos.mpr hne
          simp only [List.length_append, List.length_cons, List.length_dropLast]
          omega
        exact hocc (List.prefix_of_prefix_length_le hpre hpre2 hlen).isInfix
      cases fuel with
      | zero => simp at hfuel
      | succ f =>
          rw [List.cons_append, listReplaceGo]
          rw [if_neg (by simp [hnp])]
          congr 1
          apply ih f
          · simp only [List.length_append, List.length_cons] at hfuel ⊢
            omega
          · intro hinf
            apply hocc
            have h2 : old <:+: c :: (p' ++ old.dropLast) := List.infix_cons hinf
            rwa [← List.cons_append] at h2

lemma normalize_symbol_no_suffix (s : String)
    (h : ∀ suf ∈ SUFFIXES, ¬ (suf.data <:+ s.data)) : normalize_symbol s = s := by
  simp only [normalize_symbol, SUFFIXES, normalizeGo]
  rw [if_neg, if_neg, if_neg, if_neg, if_neg, if_neg]
  all_goals
    intro hc
    refine h _ (by simp [SUFFIXES]) (List.isSuffixOf_iff_suffix.mp hc)

lemma normalize_symbol_trailing (pre suf : String) (hmem : suf ∈ SUFFIXES)
    (hocc : ¬ suf.data <:+: (pre.data ++ suf.data.dropLast)) :
    normalize_symbol (pre ++ suf) = pre := by
  have hdata : (pre ++ suf).data = pre.data ++ suf.data := String.data_append pre suf
  have hrepl : strReplace (pre ++ suf) suf "" = pre := by
    unfold strReplace
    rw [hdata]
    rw [listReplaceGo_single suf.data (by
      intro he
      rw [SUFFIXES] at hmem
      fin_cases hmem <;> simp_all) pre.data _ le_rfl hocc]
  fin_cases hmem
  · simp only [normalize_symbol, SUFFIXES, normalizeGo, hdata]
    rw [if_pos (isSuffixOf_append_self _ _)]
    exact hrepl
  · simp only [normalize_symbol, SUFFIXES, normalizeGo, hdata]
    rw [if_neg (by rw [not_isSuffixOf_append _ _ _ (by decide) (by decide)]; simp),
      if_pos (isSuffixOf_append_self _ _)]
    exact hrepl
  · simp only [normalize_symbol, SUFFIXES, normalizeGo, hdata]
    rw [if_neg (by rw [not_isSuffixOf_append _ _ _ (by decide) (by decide)]; simp),
      if_neg (by rw [not_isSuffixOf_append _ _ _ (by decide) (by decide)]; simp),
      if_pos (isSuffixOf_append_self _ _)]
    exact hrepl
  · simp only [normalize_symbol, SUFFIXES, normalizeGo, hdata]
    rw [if_neg (by rw [not_isSuffixOf_append _ _ _ (by decide) (by decide)]; simp),
      if_neg (by rw [not_isSuffixOf_append _ _ _ (by decide) (by decide)]; simp),
      if_neg (by rw [not_isSuffixOf_append _ _ _ (by decide) (by decide)]; simp),
      if_pos (isSuffixOf_append_self _ _)]
    exact hrepl
  · simp only [normalize_symbol, SUFFIXES, normalizeGo, hdata]
    rw [if_neg (by rw [not_isSuffixOf_append _ _ _ (by decide) (by decide)]; simp),
      if_neg (by rw [not_isSuffixOf_append _ _ _ (by decide) (by decide)]; simp),
      if_neg (by rw [not_isSuffixOf_append _ _ _ (by decide) (by decide)]; simp),
      if_neg (by rw [not_isSuffixOf_append _ _ _ (by decide) (by decide)]; simp),
      if_pos (isSuffixOf_append_self _ _)]
    exact hrepl
  · simp only [normalize_symbol, SUFFIXES, normalizeGo, hdata]
    rw [if_neg (by rw [not_isSuffixOf_append _ _ _ (by decide) (by decide)]; simp),
      if_neg (by rw [not_isSuffixOf_append _ _ _ (by decide) (by decide)]; simp),
      if_neg (by rw [not_isSuffixOf_append _ _ _ (by decide) (by decide)]; simp),
      if_neg (by rw [not_isSuffixOf_append _ _ _ (by decide) (by decide)]; simp),
      if_neg (by rw [not_isSuffixOf_append _ _ _ (by decide) (by decide)]; simp),
      if_pos (isSuffixOf_append_self _ _)]
    exact hrepl

/-! ## Python truthiness, characterized -/

lemma pyTruthy_iff (v : Py) : pyTruthy v = true ↔
    (v ≠ Py.none ∧ v ≠ Py.bool false ∧ v ≠ Py.int 0 ∧ v ≠ Py.str "" ∧
     v ≠ Py.list [] ∧ v ≠ Py.dict []) := by
  cases v <;> simp [pyTruthy]

/-! ## The claims

Concrete configurations and payloads used by counterexamples and
witnesses. -/

/-- A safe-mode configuration with complete credentials. -/
def cfg0 : Config := ⟨"tvtoken", "key", "secret", "pass", false⟩

/-- A live-mode configuration with complete credentials. -/
def cfgLive : Config := ⟨"tvtoken", "key", "secret", "pass", true⟩

/-- A valid buy-market payload whose `reduce_only` is the string
`"false"`. -/
def dC1 : List (String × Py) :=
  [("token", Py.str "tvtoken"), ("type", Py.str "order"), ("symbol", Py.str "BTCUSDT"),
   ("action", Py.str "buy"), ("qty", Py.str "1"), ("reduce_only", Py.str "false")]

/-- C1 (counterexample): the payload value `"false"` for `reduce_only` is
one of the claim's falsy tokens, yet the built order carries
`tradeSide="close"` and `reduceOnly="YES"`, because the source coerces
with Python `bool(...)` and every non-empty string is truthy. -/
theorem C1_counterexample :
    pyTruthy (Py.str "false") = true ∧
    bodyField (tv_webhook cfg0 dC1 "1700000000000") "tradeSide" = Option.some "close" ∧
    bodyField (tv_webhook cfg0 dC1 "1700000000000") "reduceOnly" = Option.some "YES" :=
  ⟨rfl, rfl, rfl⟩

/-- C1 (amended): `reduce_only` is coerced with Python truthiness — true
iff the value is present and is none of `False`, `0`, `""`, `[]`, `{}` —
and the built order's `tradeSide`/`reduceOnly` fields follow exactly that
coercion; so the strings `"false"`, `"no"`, `"0"` count as truthy and
yield `tradeSide="close"`, `reduceOnly="YES"`, while absence and the
genuinely falsy values yield `tradeSide="open"`, `reduceOnly="NO"`. -/
theorem C1_reduce_only_python_truthiness :
    (∀ v : Py, pyTruthy v = true ↔
      (v ≠ Py.none ∧ v ≠ Py.bool false ∧ v ≠ Py.int 0 ∧ v ≠ Py.str "" ∧
       v ≠ Py.list [] ∧ v ≠ Py.dict [])) ∧
    (∀ (cfg : Config) (d : List (String × Py)) (ts : String),
      ReachesBuild cfg d → cfg.BITGET_LIVE_TRADING = false →
      bodyField (tv_webhook cfg d ts) "tradeSide" =
        Option.some (if pyTruthy (pyGetD d "reduce_only" (Py.bool false))
          then "close" else "open") ∧
      bodyField (tv_webhook cfg d ts) "reduceOnly" =
        Option.some (if pyTruthy (pyGetD d "reduce_only" (Py.bool false))
          then "YES" else "NO")) := by
  refine ⟨pyTruthy_iff, fun cfg d ts h hlive => ?_⟩
  rw [tv_webhook_safe_body cfg d ts h hlive]
  simp only [bodyField, lookup_body_tradeSide, lookup_body_reduceOnly]
  exact ⟨trivial, trivial⟩

/-- A valid buy-market payload whose `reduce_only` is the string `"no"`. -/
def dC1w : List (String × Py) :=
  [("token", Py.str "tvtoken"), ("type", Py.str "order"), ("symbol", Py.str "BTCUSDT"),
   ("action", Py.str "buy"), ("qty", Py.str "1"), ("reduce_only", Py.str "no")]

/-- C1 witness: at the concrete payload with `reduce_only="no"` the
theorem gives `tradeSide="close"`, `reduceOnly="YES"`. -/
theorem C1_witness :
    (pyTruthy (Py.str "no") = true ↔
      (Py.str "no" ≠ Py.none ∧ Py.str "no" ≠ Py.bool false ∧ Py.str "no" ≠ Py.int 0 ∧
       Py.str "no" ≠ Py.str "" ∧ Py.str "no" ≠ Py.list [] ∧ Py.str "no" ≠ Py.dict [])) ∧
    (bodyField (tv_webhook cfg0 dC1w "1") "tradeSide" = Option.some "close" ∧
     bodyField (tv_webhook cfg0 dC1w "1") "reduceOnly" = Option.some "YES") :=
  ⟨C1_reduce_only_python_truthiness.1 (Py.str "no"),
   C1_reduce_only_python_truthiness.2 cfg0 dC1w "1"
     ⟨⟨rfl, rfl, rfl, rfl, rfl, by decide, by decide, by decide⟩, by decide, by decide⟩ rfl⟩

/-- C2 (counterexample): `"BTCUSDT_UMCBL_UMCBL"` ends in the known suffix
`_UMCBL`; removing exactly the trailing occurrence would give
`"BTCUSDT_UMCBL"`, but the source's `str.replace` removes every
occurrence and returns `"BTCUSDT"`. -/
theorem C2_counterexample :
    normalize_symbol "BTCUSDT_UMCBL_UMCBL" = "BTCUSDT" ∧
    normalize_symbol "BTCUSDT_UMCBL_UMCBL" ≠ "BTCUSDT_UMCBL" := by
  constructor
  · rfl
  · decide

/-- C2 (amended): symbol normalization removes every occurrence of the
first matching suffix, since the source uses `str.replace`; when the
suffix occurs only as the trailing occurrence — the realistic case —
exactly that suffix is stripped and nothing else changes, and a symbol
ending in no known suffix passes through unchanged. -/
theorem C2_normalize_symbol_strips_all :
    (∀ s : String, (∀ suf ∈ SUFFIXES, ¬ (suf.data <:+ s.data)) →
      normalize_symbol s = s) ∧
    (∀ pre suf : String, suf ∈ SUFFIXES →
      ¬ suf.data <:+: (pre.data ++ suf.data.dropLast) →
      normalize_symbol (pre ++ suf) = pre) ∧
    normalize_symbol "BTCUSDT_UMCBL_UMCBL" = "BTCUSDT" :=
  ⟨normalize_symbol_no_suffix, normalize_symbol_trailing, rfl⟩

/-- C2 witness: a suffix-free symbol passes through unchanged, and a
symbol with a single trailing suffix has exactly that suffix stripped. -/
theorem C2_witness :
    normalize_symbol "ETHUSDT" = "ETHUSDT" ∧
    normalize_symbol ("ETHUSDT" ++ "_SDMCBL") = "ETHUSDT" :=
  ⟨C2_normalize_symbol_strips_all.1 "ETHUSDT" (by decide),
   C2_normalize_symbol_strips_all.2.1 "ETHUSDT" "_SDMCBL" (by decide) (by decide)⟩

/-- A valid buy-market payload without optional fields. -/
def dLive : List (String × Py) :=
  [("token", Py.str "tvtoken"), ("type", Py.str "order"), ("symbol", Py.str "BTCUSDT"),
   ("action", Py.str "buy"), ("qty", Py.str "1")]

/-- C3: the canonical serialization is deterministic — two bodies with
the same entries in any insertion order (and no duplicate keys)
serialize to byte-identical strings; the serialization order is the
lexicographically sorted key order; and on every live run the string in
the `ACCESS-SIGN` computation is exactly the string transmitted as the
HTTP body.  (`compact_json` itself emits the sorted entries with `,` and
`:` separators and no whitespace.) -/
theorem C3_canonical_serialization :
    (∀ l1 l2 : List (String × String), l1.Perm l2 → (l1.map Prod.fst).Nodup →
      compact_json l1 = compact_json l2) ∧
    (∀ l : List (String × String), (List.insertionSort keyLE l).Perm l ∧
      ((List.insertionSort keyLE l).map Prod.fst).Sorted (fun a b => a ≤ b)) ∧
    (∀ (cfg : Config) (d : List (String × Py)) (ts : String),
      signedMatchesSentBody (tv_webhook cfg d ts) cfg ts) := by
  refine ⟨compact_json_perm, fun l => ⟨List.perm_insertionSort keyLE l, ?_⟩,
    signedMatchesSentBody_all⟩
  exact (List.pairwise_map).mpr (List.sorted_insertionSort keyLE l)

/-- C3 witness: two insertion orders of the same two-field body serialize
identically. -/
theorem C3_witness :
    compact_json [("b", "2"), ("a", "1")] = compact_json [("a", "1"), ("b", "2")] :=
  C3_canonical_serialization.1 [("b", "2"), ("a", "1")] [("a", "1"), ("b", "2")]
    (by decide) (by decide)

/-- C4: the request signature is the Base64 encoding of the HMAC-SHA256
digest, keyed by the API secret, of the concatenation
`timestamp ++ method ++ path ++ body` (determinism is immediate since
`sign_bitget` is a pure function of exactly these inputs); on every live
run the signature over the transmitted body sits in the `ACCESS-SIGN`
header next to `ACCESS-KEY`, `ACCESS-TIMESTAMP` and `ACCESS-PASSPHRASE`;
and the live branch is reachable (so the header property is not
vacuous). -/
theorem C4_signature_scheme :
    (∀ secret ts method path body : String,
      sign_bitget secret ts method path body =
        base64Encode (hmacSha256 (utf8Encode secret)
          (utf8Encode (ts ++ method ++ path ++ body)))) ∧
    (∀ (cfg : Config) (d : List (String × Py)) (ts : String),
      sigHeaderOK (tv_webhook cfg d ts) cfg ts) ∧
    (sentRequest (tv_webhook cfgLive dLive "1700000000000")).isSome = true :=
  ⟨fun _ _ _ _ _ => rfl, sigHeaderOK_all, rfl⟩

/-- C5 (counterexample): a request body that is a double-quote-delimited
string wrapping JSON (here the four characters `"{}"`) is parsed by the
single strict `json.loads` to the *string* `{}` — no unwrap-and-retry
happens — after which the handler dies with an unhandled error (a 500),
and a body that is not JSON at all also produces the unhandled 500, not
the claimed 400 `InvalidBody` response. -/
theorem C5_counterexample :
    jsonLoads "\"\x7b\x7d\"" = Option.some (Py.str "\x7b\x7d") ∧
    tv_webhook_raw cfg0 "\"\x7b\x7d\"" "1" = RawResult.unhandledError ∧
    tv_webhook_raw cfg0 "notjson" "1" = RawResult.unhandledError :=
  ⟨rfl, rfl, rfl⟩

/-- C5 (amended): request-body decoding is one strict JSON parse with no
second attempt: a body parsing to an object is handled directly; a body
that fails to parse, and equally a body parsing to a string (such as a
quoted string wrapping JSON, which is never unwrapped), escapes the
handler as an unhandled exception that the framework surfaces as a plain
500 — there is no `InvalidBody` 400 path. -/
theorem C5_single_strict_parse :
    (∀ (cfg : Config) (raw ts : String) (kvs : List (String × Py)),
      jsonLoads raw = Option.some (Py.dict kvs) →
      tv_webhook_raw cfg raw ts = RawResult.handled (tv_webhook cfg kvs ts)) ∧
    (∀ (cfg : Config) (raw ts : String),
      jsonLoads raw = Option.none → tv_webhook_raw cfg raw ts = RawResult.unhandledError) ∧
    (∀ (cfg : Config) (raw ts s : String),
      jsonLoads raw = Option.some (Py.str s) →
      tv_webhook_raw cfg raw ts = RawResult.unhandledError) := by
  refine ⟨fun cfg raw ts kvs h => ?_, fun cfg raw ts h => ?_, fun cfg raw ts s h => ?_⟩
  all_goals
    unfold tv_webhook_raw
    rw [h]

/-- C5 witness: the raw body `{}` parses to the empty object and is
handled as such. -/
theorem C5_witness :
    tv_webhook_raw cfg0 "\x7b\x7d" "1" = RawResult.handled (tv_webhook cfg0 [] "1") :=
  C5_single_strict_parse.1 cfg0 "\x7b\x7d" "1" [] rfl

/-- C6: a limit order whose price is absent (or trims to empty) is
rejected with a 400 whose message names the missing price; and for any
order that is built, the `price` and `force` keys are present in the
body exactly when the order type is `"limit"` — in particular a supplied
price is dropped for non-limit orders. -/
theorem C6_limit_price_rules :
    (∀ (cfg : Config) (d : List (String × Py)) (ts : String),
      PassesChecks cfg d → NotSkipListed d →
      pyLower (pyStr (pyGetD d "order_type" (Py.str "market"))) = "limit" →
      as_str_or_none (pyGetD d "price" Py.none) = Option.none →
      tv_webhook cfg d ts = HandlerResult.httpError 400 "Missing price for limit order") ∧
    (∀ (cfg : Config) (d : List (String × Py)) (ts : String),
      ReachesBuild cfg d → cfg.BITGET_LIVE_TRADING = false →
      isSafe (tv_webhook cfg d ts) = true ∧
      ((bodyField (tv_webhook cfg d ts) "price").isSome ↔
        pyLower (pyStr (pyGetD d "order_type" (Py.str "market"))) = "limit") ∧
      ((bodyField (tv_webhook cfg d ts) "force").isSome ↔
        pyLower (pyStr (pyGetD d "order_type" (Py.str "market"))) = "limit")) := by
  constructor
  · intro cfg d ts hpc hns hlim hp
    obtain ⟨h1, h2, h3, h4, h5, h6, h7, h8⟩ := hpc
    exact tv_webhook_limit_missing_price cfg d ts h1 h2 h3 h4 h5 h6 h7 h8 hns hlim hp
  · intro cfg d ts h hlive
    rw [tv_webhook_safe_body cfg d ts h hlive]
    refine ⟨rfl, ?_, ?_⟩
    · simp only [bodyField, lookup_body_price]
      by_cases hl : pyLower (pyStr (pyGetD d "order_type" (Py.str "market"))) = "limit" <;>
        simp [hl]
    · simp only [bodyField, lookup_body_force]
      by_cases hl : pyLower (pyStr (pyGetD d "order_type" (Py.str "market"))) = "limit" <;>
        simp [hl]

/-- A limit-order payload without a price. -/
def dC6a : List (String × Py) :=
  [("token", Py.str "tvtoken"), ("type", Py.str "order"), ("symbol", Py.str "BTCUSDT"),
   ("action", Py.str "buy"), ("qty", Py.str "1"), ("order_type", Py.str "limit")]

/-- A market-order payload that nevertheless supplies a price. -/
def dC6b : List (String × Py) :=
  [("token", Py.str "tvtoken"), ("type", Py.str "order"), ("symbol", Py.str "BTCUSDT"),
   ("action", Py.str "buy"), ("qty", Py.str "1"), ("price", Py.str "65000")]

/-- C6 witness: the concrete limit order without a price gets the 400,
and the concrete market order with a supplied price gets a body with no
`price`/`force` keys. -/
theorem C6_witness :
    (tv_webhook cfg0 dC6a "1" = HandlerResult.httpError 400 "Missing price for limit order") ∧
    (isSafe (tv_webhook cfg0 dC6b "1") = true ∧
      ((bodyField (tv_webhook cfg0 dC6b "1") "price").isSome ↔
        pyLower (pyStr (pyGetD dC6b "order_type" (Py.str "market"))) = "limit") ∧
      ((bodyField (tv_webhook cfg0 dC6b "1") "force").isSome ↔
        pyLower (pyStr (pyGetD dC6b "order_type" (Py.str "market"))) = "limit")) :=
  ⟨C6_limit_price_rules.1 cfg0 dC6a "1"
      ⟨rfl, rfl, rfl, rfl, rfl, by decide, by decide, by decide⟩ (by decide) rfl rfl,
   C6_limit_price_rules.2 cfg0 dC6b "1"
      ⟨⟨rfl, rfl, rfl, rfl, rfl, by decide, by decide, by decide⟩, by decide, by decide⟩ rfl⟩

/-- C7: the non-selected take-profit/stop-loss group is never read — for
a buy action the whole handler result is unchanged under any variation
of `tp_short`/`tp_exec_short`/`sl_short`, and symmetrically for a
non-buy action under any variation of the long fields; moreover for a
built buy order the take-profit trigger comes from `tp_long`. -/
theorem C7_tp_sl_noninterference :
    (∀ (cfg : Config) (d1 d2 : List (String × Py)) (ts : String),
      withoutKeys d1 SHORT_FIELDS = withoutKeys d2 SHORT_FIELDS →
      pyLower (pyStr (pyGetD d1 "action" Py.none)) = "buy" →
      tv_webhook cfg d1 ts = tv_webhook cfg d2 ts) ∧
    (∀ (cfg : Config) (d1 d2 : List (String × Py)) (ts : String),
      withoutKeys d1 LONG_FIELDS = withoutKeys d2 LONG_FIELDS →
      pyLower (pyStr (pyGetD d1 "action" Py.none)) ≠ "buy" →
      tv_webhook cfg d1 ts = tv_webhook cfg d2 ts) ∧
    (∀ (cfg : Config) (d : List (String × Py)) (ts : String),
      ReachesBuild cfg d → cfg.BITGET_LIVE_TRADING = false →
      pyLower (pyStr (pyGetD d "action" Py.none)) = "buy" →
      bodyField (tv_webhook cfg d ts) "presetStopSurplusPrice" =
        as_str_or_none (pyGetD d "tp_long" Py.none)) := by
  refine ⟨tv_webhook_shorts_irrelevant, tv_webhook_longs_irrelevant, ?_⟩
  intro cfg d ts h hlive hbuy
  rw [tv_webhook_safe_body cfg d ts h hlive]
  have hb : (pyLower (pyStr (pyGetD d "action" Py.none)) == "buy") = true := by
    simp [hbuy]
  simp only [bodyField, lookup_body_tp, hb, if_true]

/-- A buy payload carrying both a long and a short take-profit. -/
def dC7a : List (String × Py) :=
  [("token", Py.str "tvtoken"), ("type", Py.str "order"), ("symbol", Py.str "BTCUSDT"),
   ("action", Py.str "buy"), ("qty", Py.str "1"),
   ("tp_long", Py.str "50000"), ("tp_short", Py.str "40000")]

/-- `dC7a` with a different short take-profit. -/
def dC7b : List (String × Py) :=
  [("token", Py.str "tvtoken"), ("type", Py.str "order"), ("symbol", Py.str "BTCUSDT"),
   ("action", Py.str "buy"), ("qty", Py.str "1"),
   ("tp_long", Py.str "50000"), ("tp_short", Py.str "99999")]

/-- C7 witness: at the spec's example — buy with `tp_long="50000"`,
`tp_short="40000"` — varying the short take-profit leaves the run
unchanged and the body carries `presetStopSurplusPrice="50000"`. -/
theorem C7_witness :
    tv_webhook cfg0 dC7a "1" = tv_webhook cfg0 dC7b "1" ∧
    bodyField (tv_webhook cfg0 dC7a "1") "presetStopSurplusPrice" = Option.some "50000" :=
  ⟨C7_tp_sl_noninterference.1 cfg0 dC7a dC7b "1" rfl rfl,
   C7_tp_sl_noninterference.2.2 cfg0 dC7a "1"
     ⟨⟨rfl, rfl, rfl, rfl, rfl, by decide, by decide, by decide⟩, by decide, by decide⟩
     rfl rfl⟩

/-- C8: any authorized, well-formed order payload whose trimmed
`tv_order_id` is in `{"Exit Long", "Exit Short"}` is acknowledged as
skipped, with no order built and no exchange call — and since the
payload is otherwise universally quantified, the decision inspects
nothing but the identifier. -/
theorem C8_skip_rule :
    ∀ (cfg : Config) (d : List (String × Py)) (ts : String),
      PassesChecks cfg d →
      pyStrip (pyStr (pyGetD d "tv_order_id" (Py.str ""))) ∈ TV_SKIP_ORDER_IDS →
      tv_webhook cfg d ts = HandlerResult.okSkipped ∧
      sentRequest (tv_webhook cfg d ts) = Option.none := by
  intro cfg d ts hpc hskip
  obtain ⟨h1, h2, h3, h4, h5, h6, h7, h8⟩ := hpc
  have he := tv_webhook_skip_eq cfg d ts h1 h2 h3 h4 h5 h6 h7 h8 hskip
  rw [he]
  exact ⟨rfl, rfl⟩

/-- A payload whose `tv_order_id` trims to `"Exit Long"`, with a limit
order type and no price (fields the skip decision must not consult). -/
def dC8 : List (String × Py) :=
  [("token", Py.str "tvtoken"), ("type", Py.str "order"), ("symbol", Py.str "BTCUSDT"),
   ("action", Py.str "sell"), ("qty", Py.str "2"), ("order_type", Py.str "limit"),
   ("tv_order_id", Py.str " Exit Long ")]

/-- C8 witness: the concrete `"Exit Long"` payload is skipped with no
outbound call, even though as a limit order without a price it would
otherwise be rejected. -/
theorem C8_witness :
    tv_webhook cfg0 dC8 "1" = HandlerResult.okSkipped ∧
    sentRequest (tv_webhook cfg0 dC8 "1") = Option.none :=
  C8_skip_rule cfg0 dC8 "1"
    ⟨rfl, rfl, rfl, rfl, rfl, by decide, by decide, by decide⟩ (by decide)

/-- C9: with the live switch off the handler never issues the outbound
exchange call, for any payload whatsoever; and a fully valid buy-market
order (no `reduce_only`) is answered with the safe-mode acknowledgment
whose would-be body has `tradeSide="open"`, `reduceOnly="NO"`. -/
theorem C9_safe_mode :
    (∀ (cfg : Config) (d : List (String × Py)) (ts : String) (r : OutRequest),
      cfg.BITGET_LIVE_TRADING = false → tv_webhook cfg d ts ≠ HandlerResult.sendLive r) ∧
    (∀ (cfg : Config) (d : List (String × Py)) (ts : String),
      cfg.BITGET_LIVE_TRADING = false → ReachesBuild cfg d →
      pyLower (pyStr (pyGetD d "action" Py.none)) = "buy" →
      pyLookup d "reduce_only" = Option.none →
      isSafe (tv_webhook cfg d ts) = true ∧
      bodyField (tv_webhook cfg d ts) "tradeSide" = Option.some "open" ∧
      bodyField (tv_webhook cfg d ts) "reduceOnly" = Option.some "NO") := by
  constructor
  · intro cfg d ts r hlive
    exact tv_webhook_no_send cfg hlive d ts r
  · intro cfg d ts hlive h hbuy hro
    rw [tv_webhook_safe_body cfg d ts h hlive]
    have hfalse : pyTruthy (pyGetD d "reduce_only" (Py.bool false)) = false := by
      simp [pyGetD, hro, pyTruthy]
    refine ⟨rfl, ?_, ?_⟩
    · simp only [bodyField, lookup_body_tradeSide, hfalse]
      rfl
    · simp only [bodyField, lookup_body_reduceOnly, hfalse]
      rfl

/-- C9 witness: the concrete fully valid buy-market order in safe mode is
never sent and yields the open/NO body. -/
theorem C9_witness :
    tv_webhook cfg0 dLive "1" ≠ HandlerResult.sendLive ⟨"", [], ""⟩ ∧
    (isSafe (tv_webhook cfg0 dLive "1") = true ∧
     bodyField (tv_webhook cfg0 dLive "1") "tradeSide" = Option.some "open" ∧
     bodyField (tv_webhook cfg0 dLive "1") "reduceOnly" = Option.some "NO") :=
  ⟨C9_safe_mode.1 cfg0 dLive "1" ⟨"", [], ""⟩ rfl,
   C9_safe_mode.2 cfg0 dLive "1" rfl
     ⟨⟨rfl, rfl, rfl, rfl, rfl, by decide, by decide, by decide⟩, by decide, by decide⟩
     rfl rfl⟩

/-- C10: the action is never validated against buy/sell — for every
payload that reaches the body builder, whatever the action string, its
lowercased form is copied verbatim into the body's `side`, and every
non-"buy" action selects the short-side take-profit/stop-loss fields. -/
theorem C10_action_passthrough :
    ∀ (cfg : Config) (d : List (String × Py)) (ts : String),
      ReachesBuild cfg d → cfg.BITGET_LIVE_TRADING = false →
      isSafe (tv_webhook cfg d ts) = true ∧
      bodyField (tv_webhook cfg d ts) "side" =
        Option.some (pyLower (pyStr (pyGetD d "action" Py.none))) ∧
      (pyLower (pyStr (pyGetD d "action" Py.none)) ≠ "buy" →
        bodyField (tv_webhook cfg d ts) "presetStopSurplusPrice" =
          as_str_or_none (pyGetD d "tp_short" Py.none) ∧
        bodyField (tv_webhook cfg d ts) "presetStopLossPrice" =
          as_str_or_none (pyGetD d "sl_short" Py.none) ∧
        bodyField (tv_webhook cfg d ts) "presetStopSurplusExecutePrice" =
          as_str_or_none (pyGetD d "tp_exec_short" Py.none)) := by
  intro cfg d ts h hlive
  rw [tv_webhook_safe_body cfg d ts h hlive]
  refine ⟨rfl, ?_, fun hne => ?_⟩
  · simp only [bodyField, lookup_body_side]
  · have hb : (pyLower (pyStr (pyGetD d "action" Py.none)) == "buy") = false := by
      simp [hne]
    simp only [bodyField, lookup_body_tp, lookup_body_sl, lookup_body_tpexec, hb,
      Bool.false_eq_true, if_false]
    exact ⟨trivial, trivial, trivial⟩

/-- A payload with the out-of-vocabulary action `"HOLD"` and short-side
fields. -/
def dC10 : List (String × Py) :=
  [("token", Py.str "tvtoken"), ("type", Py.str "order"), ("symbol", Py.str "BTCUSDT"),
   ("action", Py.str "HOLD"), ("qty", Py.str "1"),
   ("tp_short", Py.str "40000"), ("sl_short", Py.str "45000")]

/-- C10 witness: the `"HOLD"` payload is accepted, its lowercased action
lands in `side`, and the short take-profit/stop-loss fields are the
ones selected. -/
theorem C10_witness :
    isSafe (tv_webhook cfg0 dC10 "1") = true ∧
    bodyField (tv_webhook cfg0 dC10 "1") "side" =
      Option.some (pyLower (pyStr (pyGetD dC10 "action" Py.none))) ∧
    (pyLower (pyStr (pyGetD dC10 "action" Py.none)) ≠ "buy" →
      bodyField (tv_webhook cfg0 dC10 "1") "presetStopSurplusPrice" =
        as_str_or_none (pyGetD dC10 "tp_short" Py.none) ∧
      bodyField (tv_webhook cfg0 dC10 "1") "presetStopLossPrice" =
        as_str_or_none (pyGetD dC10 "sl_short" Py.none) ∧
      bodyField (tv_webhook cfg0 dC10 "1") "presetStopSurplusExecutePrice" =
        as_str_or_none (pyGetD dC10 "tp_exec_short" Py.none)) :=
  C10_action_passthrough cfg0 dC10 "1"
    ⟨⟨rfl, rfl, rfl, rfl, rfl, by decide, by decide, by decide⟩, by decide, by decide⟩ rfl

end TvWebhookModel
